import Mathlib

/-!
Verification of the tdl download pipeline (src/cli.rs, src/config.rs,
src/download.rs, src/main.rs) against its specification.

The Rust source is shallowly embedded: pure computations become Lean
functions, the effectful body of `download_file` becomes a function that
returns the ordered list of its observable events together with its
`Result` value, and the enumeration loops of `download_artist` /
`download_list` become functions returning the list of submitted track
ids together with their `Result` value.  External collaborators (the
catalog HTTP client, the file system, the byte stream) are passed in as
explicit environments.
-/

namespace Tdl

/-- Modelled from the spec (§6): the `Artist` entity of `src/api/models.rs`,
which is not part of the source snapshot: `resolve_artist(id) -> Artist{id, name}`. -/
structure Artist where
  id : Nat
  name : String

/-- Modelled from the spec (§6): the `Album` entity of `src/api/models.rs`,
which is not part of the source snapshot:
`Album{id, title?, duration?, number_of_tracks?, explicit?, audio_quality?, release_date?, cover?, artist?}`.
`AudioQuality` is modelled as its string rendering. -/
structure Album where
  id : Nat
  title : Option String
  duration : Option Nat
  number_of_tracks : Option Nat
  explicit : Option Bool
  audio_quality : Option String
  release_date : Option String
  cover : Option String
  artist : Option Artist

/-- Modelled from the spec (§6): the `Track` entity of `src/api/models.rs`,
which is not part of the source snapshot:
`Track{id, title, track_number, volume_number, isrc, explicit, audio_quality, duration, artist, album, copyright}`. -/
structure Track where
  id : Nat
  title : String
  track_number : Nat
  volume_number : Nat
  isrc : String
  explicit : Bool
  audio_quality : String
  duration : Nat
  artist : Artist
  album : Album
  copyright : String

/-! ## src/config.rs: filename sanitization and path-template tokens -/

/-- Characters stripped by the external `sanitize_filename::sanitize` collaborator
(crate default options, modelled from its documented behavior): the illegal set
`/ ? < > \ : * | "` plus the control ranges 0x00-0x1f and 0x80-0x9f. -/
def isIllegalFilenameChar (c : Char) : Bool :=
  c == '/' || c == '?' || c == '<' || c == '>' || c == '\\' || c == ':' ||
    c == '*' || c == '|' || c == '\"' ||
    decide (c.toNat < 32) || (decide (128 ≤ c.toNat) && decide (c.toNat ≤ 159))

/-- Model of the external `sanitize_filename::sanitize` collaborator with default
options: every illegal character is replaced by the empty string, i.e. removed.
(The crate additionally truncates to 255 bytes and rewrites Windows-reserved
names; those steps only remove further characters and are not modelled.) -/
def sanitize (s : String) : String :=
  String.mk (s.data.filter (fun c => !isIllegalFilenameChar c))

/-- `Option<T>::unwrap_empty_string` from src/config.rs: `Some(v)` renders `v`,
`None` renders the empty string. -/
def unwrapEmptyString {α : Type} [ToString α] : Option α → String
  | some v => toString v
  | none => ""

/-- `ArtistTokens` from src/config.rs. -/
inductive ArtistTokens where
  | ID
  | Name

/-- `TokenMap<Artist>::get_token` from src/config.rs: render the selected artist
field and pass it through `sanitize`. -/
def ArtistTokens.get_token (t : ArtistTokens) (a : Artist) : String :=
  let val : String :=
    match t with
    | .ID => toString a.id
    | .Name => a.name
  sanitize val

/-- `AlbumTokens` from src/config.rs. -/
inductive AlbumTokens where
  | ID
  | Title
  | Duration
  | NumberOfTracks
  | Explicit
  | AudioQuality
  | ReleaseDate
  | ReleaseYear

/-- `TokenMap<Album>::get_token` from src/config.rs: render the selected album
field (empty string for missing optional fields) and pass it through `sanitize`. -/
def AlbumTokens.get_token (t : AlbumTokens) (al : Album) : String :=
  let a : String :=
    match t with
    | .ID => toString al.id
    | .Title => unwrapEmptyString al.title
    | .Duration => unwrapEmptyString al.duration
    | .NumberOfTracks => unwrapEmptyString al.number_of_tracks
    | .Explicit => if al.explicit.getD false then "E" else ""
    | .AudioQuality => unwrapEmptyString al.audio_quality
    | .ReleaseDate => unwrapEmptyString al.release_date
    | .ReleaseYear =>
        unwrapEmptyString ((unwrapEmptyString al.release_date).splitOn "-").head?
  sanitize a

/-- `TrackTokens` from src/config.rs. -/
inductive TrackTokens where
  | ID
  | Title
  | Duration
  | TrackNumber
  | VolumeNumber
  | ISRC
  | Explicit
  | AudioQuality

/-- `TokenMap<Track>::get_token` from src/config.rs: render the selected track
field and pass it through `sanitize`. -/
def TrackTokens.get_token (t : TrackTokens) (v : Track) : String :=
  let a : String :=
    match t with
    | .ID => toString v.id
    | .Title => v.title
    | .Duration => toString v.duration
    | .TrackNumber => toString v.track_number
    | .VolumeNumber => toString v.volume_number
    | .ISRC => v.isrc
    | .Explicit => if v.explicit then "E" else ""
    | .AudioQuality => v.audio_quality
  sanitize a

/-- `x.contains(entry.0)` on strings in `DownloadPath::replace_path`
(src/config.rs): substring containment, via `splitOn`. -/
def strContainsSub (x pat : String) : Bool :=
  (x.splitOn pat).length != 1

/-- The token-substitution pass of `DownloadPath::replace_path` (src/config.rs):
for each map entry, if the path contains the token pattern, replace every
occurrence with the entry's rendered token value. -/
def replaceTokens (entries : List (String × String)) (path : String) : String :=
  entries.foldl (fun x e => if strContainsSub x e.1 then x.replace e.1 e.2 else x) path

/-- `ARTIST_TOKEN_MAP` from src/config.rs, with token values rendered for a
concrete artist. -/
def artistTokenEntries (a : Artist) : List (String × String) :=
  [("\x7bartist_name\x7d", ArtistTokens.Name.get_token a),
   ("\x7bartist_id\x7d", ArtistTokens.ID.get_token a)]

/-- `ALBUM_TOKEN_MAP` from src/config.rs, with token values rendered for a
concrete album. -/
def albumTokenEntries (al : Album) : List (String × String) :=
  [("\x7balbum_id\x7d", AlbumTokens.ID.get_token al),
   ("\x7balbum_name\x7d", AlbumTokens.Title.get_token al),
   ("\x7balbum_duration\x7d", AlbumTokens.Duration.get_token al),
   ("\x7balbum_tracks\x7d", AlbumTokens.NumberOfTracks.get_token al),
   ("\x7balbum_explicit\x7d", AlbumTokens.Explicit.get_token al),
   ("\x7balbum_quality\x7d", AlbumTokens.AudioQuality.get_token al),
   ("\x7balbum_release\x7d", AlbumTokens.ReleaseDate.get_token al),
   ("\x7balbum_release_year\x7d", AlbumTokens.ReleaseYear.get_token al)]

/-- `TRACK_TOKEN_MAP` from src/config.rs, with token values rendered for a
concrete track. -/
def trackTokenEntries (v : Track) : List (String × String) :=
  [("\x7btrack_id\x7d", TrackTokens.ID.get_token v),
   ("\x7btrack_name\x7d", TrackTokens.Title.get_token v),
   ("\x7btrack_duration\x7d", TrackTokens.Duration.get_token v),
   ("\x7btrack_num\x7d", TrackTokens.TrackNumber.get_token v),
   ("\x7btrack_volume\x7d", TrackTokens.VolumeNumber.get_token v),
   ("\x7btrack_isrc\x7d", TrackTokens.ISRC.get_token v),
   ("\x7btrack_explicit\x7d", TrackTokens.Explicit.get_token v),
   ("\x7btrack_quality\x7d", TrackTokens.AudioQuality.get_token v)]

/-! ## src/cli.rs: the two ranged concurrency flags -/

/-- `RangedU64ValueParser::<u8>::new().range(lo..hi)` from src/cli.rs: a value
is accepted iff it lies in the half-open range `lo..hi` and fits in a `u8`. -/
def rangedU8Accepts (lo hi v : Nat) : Bool :=
  decide (lo ≤ v) && decide (v < hi) && decide (v ≤ 255)

/-- The `downloads` flag value parser from src/cli.rs: `range(1..11)`. -/
def downloadsAccepts (v : Nat) : Bool := rangedU8Accepts 1 11 v

/-- The `workers` flag value parser from src/cli.rs: `range(1..256)`. -/
def workersAccepts (v : Nat) : Bool := rangedU8Accepts 1 256 v

/-! ## src/download.rs: channel capacities and the write buffer -/

/-- The two concurrency limits read from `CONFIG` in `dispatch_downloads`
(src/download.rs): `config.workers` and `config.downloads`. -/
structure PipelineSettings where
  workers : Nat
  downloads : Nat

/-- `buffer_size` in `dispatch_downloads` (src/download.rs line 37): the
capacity of the transfer (`dl`) channel is `workers + downloads`. -/
def dlChannelBufferSize (c : PipelineSettings) : Nat :=
  c.workers + c.downloads

/-- The capacity of the preparation (`worker`) channel in `dispatch_downloads`
(src/download.rs line 39): `config.workers`. -/
def workerChannelBufferSize (c : PipelineSettings) : Nat :=
  c.workers

/-- The `BufWriter` capacity in `DownloadTask::download_file`
(src/download.rs line 165): `1024 * 1000 * 1000` bytes. -/
def bufWriterCapacity : Nat := 1024 * 1000 * 1000

/-! ## src/download.rs: reference resolution and enumeration -/

/-- `ActionKind` from src/models.rs (used by `dispatch_downloads`). -/
inductive ActionKind where
  | track
  | album
  | artist
  | playlist

/-- Modelled from the spec (§3): an `Action` as produced by `Action::from_str`
in src/models.rs, which is not part of the source snapshot: a resolved
`(kind, id)` pair. -/
structure Action where
  kind : ActionKind
  id : String

/-- The url loop of `dispatch_downloads` (src/download.rs lines 50-80) with
`Action::from_str` abstracted as `resolve`: a url that fails to resolve is
skipped (`continue`), every resolved url spawns one task; the returned list is
the list of spawned actions in order. -/
def dispatch_downloads (resolve : String → Except String Action) :
    List String → List Action
  | [] => []
  | u :: rest =>
    match resolve u with
    | .error _ => dispatch_downloads resolve rest
    | .ok a => a :: dispatch_downloads resolve rest

/-- Environment for the enumeration loops of `DownloadTask`: the catalog
client's listing calls and whether a send on the worker channel succeeds
(a send fails only when the receiver is gone). -/
structure EnumEnv where
  getArtistAlbums : String → Except String (List String)
  getItems : String → Except String (List String)
  sendOk : Bool

/-- The track loop of `DownloadTask::download_list` (src/download.rs lines
111-117): submit each track to the worker channel in order; a failed send
returns the submission error. Returns the submitted track ids and the result. -/
def sendAll (sendOk : Bool) : List String → List String × Except String Bool
  | [] => ([], .ok true)
  | t :: rest =>
    if sendOk then
      let p := sendAll sendOk rest
      (t :: p.1, p.2)
    else ([], .error "Error Submitting download_track")

/-- `DownloadTask::download_list` (src/download.rs lines 104-119): fetch the
list's items, propagating a fetch error, then submit every track to the worker
channel. Returns the submitted track ids and the result. -/
def download_list (env : EnumEnv) (id : String) : List String × Except String Bool :=
  match env.getItems id with
  | .error e => ([], .error e)
  | .ok tracks => sendAll env.sendOk tracks

/-- The album loop of `DownloadTask::download_artist` (src/download.rs lines
97-100): run `download_list` on each album in order; the `?` operator
propagates the first error, abandoning the remaining albums. -/
def downloadArtistLoop (env : EnumEnv) : List String → List String × Except String Bool
  | [] => ([], .ok true)
  | a :: rest =>
    let p := download_list env a
    match p.2 with
    | .error e => (p.1, .error e)
    | .ok _ =>
      let q := downloadArtistLoop env rest
      (p.1 ++ q.1, q.2)

/-- `DownloadTask::download_artist` (src/download.rs lines 94-102): fetch the
artist's albums, propagating a fetch error, then enumerate each album through
`download_list`, propagating the first album error. -/
def download_artist (env : EnumEnv) (id : String) : List String × Except String Bool :=
  match env.getArtistAlbums id with
  | .error e => ([], .error e)
  | .ok albums => downloadArtistLoop env albums

/-! ## src/download.rs: the transfer unit `download_file` -/

/-- The streaming manifest, modelled from the spec (§6,
`get_stream_manifest -> {urls: non-empty ordered list, file_extension}`);
`PlaybackManifest` lives in src/api/models.rs, which is not part of the
source snapshot. -/
structure Manifest where
  urls : List String
  fileExtension : String

/-- `file_stem` of a file name, following Rust `PathBuf::set_extension`: the
portion before the last dot, except that a lone leading dot starts the stem. -/
def dropFileExtension (name : String) : String :=
  let parts := name.splitOn "."
  match parts with
  | [] => name
  | [_] => name
  | first :: rest =>
    if first = "" && rest.length = 1 then name
    else String.intercalate "." parts.dropLast

/-- `PathBuf::set_extension` on the path's final component (src/download.rs
lines 135-139): drop an existing extension of the file name and append the
extension derived from the manifest. -/
def setExtension (path ext : String) : String :=
  let comps := path.splitOn "/"
  let last := comps.getLastD ""
  String.intercalate "/" (comps.dropLast ++ [dropFileExtension last ++ "." ++ ext])

/-- The observable events of `DownloadTask::download_file`, in program order. -/
inductive Event where
  | getStreamUrl : Nat → Event
  | existsCheck : String → Bool → Event
  | httpGet : String → Event
  | createDirAll : Event
  | fileCreate : String → Event
  | setPosition : Nat → Event
  | writeChunk : Nat → Event
  | flush : Event
  | writeMetadata : Event
deriving DecidableEq

/-- Environment of one `download_file` run: the manifest fetch result, whether
the post-extension destination already exists, the response's content length,
whether the file-system calls succeed, the byte chunks of the response stream
(`none` is a mid-stream error), and whether flush and the metadata write
succeed. -/
structure FileEnv where
  manifest : Option Manifest
  pathExists : Bool
  contentLength : Option Nat
  createDirOk : Bool
  createFileOk : Bool
  chunks : List (Option Nat)
  flushOk : Bool
  metadataOk : Bool

/-- The chunk loop of `download_file` (src/download.rs lines 166-173): for each
chunk, advance `downloaded = min(downloaded + chunk.len(), total_size)`, report
the new position, and write the chunk; a chunk error aborts the loop. Returns
the emitted events and the final counter (or the error). -/
def streamLoop (total : Nat) : List (Option Nat) → Nat → List Event × Except String Nat
  | [], d => ([], .ok d)
  | none :: _, _ => ([], .error "chunk error")
  | some len :: rest, d =>
    let d2 := min (d + len) total
    let p := streamLoop total rest d2
    (.setPosition d2 :: .writeChunk len :: p.1, p.2)

/-- `DownloadTask::download_file` (src/download.rs lines 131-184): manifest
fetch, extension derivation, early exit when the destination exists, streaming
GET with mandatory content length, directory and file creation, the chunk
loop, flush, and the metadata write. Returns the ordered event list and the
`Result` value (`Ok(false)` = skipped, `Ok(true)` = completed). -/
def download_file (env : FileEnv) (track : Track) (path : String) :
    List Event × Except String Bool :=
  match env.manifest with
  | none => ([.getStreamUrl track.id], .error "manifest")
  | some m =>
    let pExt := setExtension path m.fileExtension
    let streamUrl := m.urls.headD ""
    let evs0 : List Event := [.getStreamUrl track.id, .existsCheck pExt env.pathExists]
    if env.pathExists then
      (evs0, .ok false)
    else
      let evs1 := evs0 ++ [.httpGet streamUrl]
      match env.contentLength with
      | none => (evs1, .error ("Failed to get content length from " ++ streamUrl))
      | some total =>
        let evs2 := evs1 ++ [.createDirAll]
        if !env.createDirOk then (evs2, .error "create_dir_all failed") else
        let evs3 := evs2 ++ [.fileCreate pExt]
        if !env.createFileOk then (evs3, .error "File create failed") else
        let sp := streamLoop total env.chunks 0
        let evs4 := evs3 ++ sp.1
        match sp.2 with
        | .error e => (evs4, .error e)
        | .ok _ =>
          let evs5 := evs4 ++ [.flush]
          if !env.flushOk then (evs5, .error "flush failed") else
          let evs6 := evs5 ++ [.writeMetadata]
          if !env.metadataOk then (evs6, .error "metadata failed") else
          (evs6, .ok true)

/-- The pipeline stage of an event: manifest fetch, existence check, streaming
GET, directory creation, file creation, chunk streaming, flush, tag write. -/
def rank : Event → Nat
  | .getStreamUrl _ => 0
  | .existsCheck _ _ => 1
  | .httpGet _ => 2
  | .createDirAll => 3
  | .fileCreate _ => 4
  | .setPosition _ => 5
  | .writeChunk _ => 5
  | .flush => 6
  | .writeMetadata => 7

/-- Whether an event is the streaming HTTP GET. -/
def Event.isHttpGet : Event → Bool
  | .httpGet _ => true
  | _ => false

/-- Whether an event writes a byte chunk. -/
def Event.isWriteChunk : Event → Bool
  | .writeChunk _ => true
  | _ => false

/-- Whether an event creates the destination file. -/
def Event.isFileCreate : Event → Bool
  | .fileCreate _ => true
  | _ => false

/-- The successive values of the `downloaded` counter in the chunk loop of
`download_file`, one per chunk: `d2 = min (d + len) total`. -/
def downloadedSeq (total : Nat) : Nat → List Nat → List Nat
  | _, [] => []
  | d, len :: rest =>
    let d2 := min (d + len) total
    d2 :: downloadedSeq total d2 rest

/-- The per-chunk event pattern of the chunk loop: report the new counter
value, then write the chunk. -/
def chunkEvents : List Nat → List Nat → List Event
  | d :: ds, len :: lens => .setPosition d :: .writeChunk len :: chunkEvents ds lens
  | _, _ => []

/-! ## Theorems for claims C2, C3, C9, C10 -/

/-- C2: the destination file's buffered writer is claimed to have a capacity of
approximately 1 MB.  The source constant is `1024 * 1000 * 1000` bytes, which
exceeds 900 MiB — roughly one gigabyte, a thousandfold of the ≈1 MB the claim
(and the source's own comment, "1 MiB Write buffer") states. -/
theorem c2_buffer_capacity :
    bufWriterCapacity = 1024 * 1000 * 1000 ∧ 900 * 1024 * 1024 < bufWriterCapacity := by
  constructor
  · rfl
  · norm_num [bufWriterCapacity]

/-- C3: the transfer channel is created with capacity `workers + downloads` and
the preparation channel with capacity `workers`; each channel's capacity is at
least the concurrency cap of its consumer (`downloads` for the transfer stage,
`workers` for the preparation stage), for every settings value. -/
theorem c3_channel_capacities (c : PipelineSettings) :
    dlChannelBufferSize c = c.workers + c.downloads ∧
    workerChannelBufferSize c = c.workers ∧
    c.downloads ≤ dlChannelBufferSize c ∧
    c.workers ≤ workerChannelBufferSize c := by
  refine ⟨rfl, rfl, ?_, Nat.le_refl _⟩
  simp [dlChannelBufferSize]

/-- C9: the `workers` flag accepts exactly the integers from 1 to 255 and the
`downloads` flag accepts exactly the integers from 1 to 10; everything outside
these ranges is rejected by the argument parser. -/
theorem c9_cli_ranges (v : Nat) :
    (workersAccepts v = true ↔ 1 ≤ v ∧ v ≤ 255) ∧
    (downloadsAccepts v = true ↔ 1 ≤ v ∧ v ≤ 10) := by
  constructor
  · simp [workersAccepts, rangedU8Accepts]
    omega
  · simp [downloadsAccepts, rangedU8Accepts]
    omega

/-- Every character surviving `sanitize` is legal. -/
theorem sanitize_data_all (s : String) :
    ((sanitize s).data.all (fun c => !isIllegalFilenameChar c)) = true := by
  simp only [sanitize, List.all_eq_true]
  intro c hc
  simp only [List.mem_filter] at hc
  exact hc.2

/-- C10: every token value substituted into the download-path template is the
image of a raw metadata field under `sanitize`, and therefore contains no path
separators or other filename-reserved characters, for every artist, album and
track entity and every token. -/
theorem c10_tokens_sanitized :
    (∀ (t : ArtistTokens) (a : Artist),
      (∃ raw, t.get_token a = sanitize raw) ∧
      ((t.get_token a).data.all (fun c => !isIllegalFilenameChar c)) = true) ∧
    (∀ (t : AlbumTokens) (al : Album),
      (∃ raw, t.get_token al = sanitize raw) ∧
      ((t.get_token al).data.all (fun c => !isIllegalFilenameChar c)) = true) ∧
    (∀ (t : TrackTokens) (v : Track),
      (∃ raw, t.get_token v = sanitize raw) ∧
      ((t.get_token v).data.all (fun c => !isIllegalFilenameChar c)) = true) := by
  refine ⟨fun t a => ⟨?_, ?_⟩, fun t al => ⟨?_, ?_⟩, fun t v => ⟨?_, ?_⟩⟩
  · cases t <;> exact ⟨_, rfl⟩
  · cases t <;> exact sanitize_data_all _
  · cases t <;> exact ⟨_, rfl⟩
  · cases t <;> exact sanitize_data_all _
  · cases t <;> exact ⟨_, rfl⟩
  · cases t <;> exact sanitize_data_all _

/-! ## Theorems for claims C7 and C1 -/

/-- C7: a reference that fails to resolve is skipped without spawning a task,
and the remaining references are still processed exactly as if the bad
reference were absent; one unresolvable reference never aborts the run. -/
theorem c7_skip_invalid (resolve : String → Except String Action)
    (us1 : List String) (u : String) (us2 : List String) (err : String)
    (h : resolve u = .error err) :
    dispatch_downloads resolve (us1 ++ u :: us2) =
      dispatch_downloads resolve us1 ++ dispatch_downloads resolve us2 ∧
    dispatch_downloads resolve [u] = [] := by
  constructor
  · induction us1 with
    | nil => simp [dispatch_downloads, h]
    | cons a t ih =>
      cases hr : resolve a <;>
        simp [dispatch_downloads, hr, ih]
  · simp [dispatch_downloads, h]

/-- A concrete resolver: the reference "bad" is unresolvable, everything else
resolves into a track action. -/
def exResolve : String → Except String Action :=
  fun s => if s = "bad" then .error "UnresolvedReference" else .ok ⟨ActionKind.track, s⟩

/-- Witness for C7 at a concrete input: the batch `["t1", "bad", "t2"]`
spawns exactly the tasks of `["t1"]` and `["t2"]`. -/
theorem c7_skip_invalid_witness :
    dispatch_downloads exResolve (["t1"] ++ "bad" :: ["t2"]) =
      dispatch_downloads exResolve ["t1"] ++ dispatch_downloads exResolve ["t2"] ∧
    dispatch_downloads exResolve ["bad"] = [] :=
  c7_skip_invalid exResolve ["t1"] "bad" ["t2"] "UnresolvedReference" rfl

/-- A concrete enumeration environment: artist "A" has albums "a1" and "a2";
listing "a1" fails, listing "a2" yields the single track "t1". -/
def exC1Env : EnumEnv where
  getArtistAlbums := fun s => if s = "A" then .ok ["a1", "a2"] else .error "no artist"
  getItems := fun s =>
    if s = "a1" then .error "EnumerationFailure"
    else if s = "a2" then .ok ["t1"] else .error "no list"
  sendOk := true

/-- C1 counterexample: artist "A" has the sibling albums "a1" and "a2";
enumerating "a2" alone succeeds and submits its track "t1", yet after the
failure on "a1" the artist run submits no track at all — the sibling album
"a2" is not enumerated, refuting the claim at this concrete input. -/
theorem c1_counterexample :
    exC1Env.getArtistAlbums "A" = .ok ["a1", "a2"] ∧
    download_list exC1Env "a2" = (["t1"], .ok true) ∧
    download_artist exC1Env "A" = ([], .error "EnumerationFailure") :=
  ⟨rfl, rfl, rfl⟩

/-- C1 amended: a failure while enumerating one of an artist's albums aborts
the artist's entire remaining enumeration — the tracks of the albums before
the failing one are submitted, the failing album's partial submissions are
kept, no later sibling album is enumerated, and the artist task returns the
error (isolation holds only between top-level references, each of which runs
in its own spawned task). -/
theorem c1_artist_abort (env : EnumEnv) (pre : List String) (a : String)
    (post : List String) (err : String)
    (h1 : ∀ b ∈ pre, (download_list env b).2 = .ok true)
    (h2 : (download_list env a).2 = .error err) :
    downloadArtistLoop env (pre ++ a :: post) =
      ((pre.map (fun b => (download_list env b).1)).flatten ++ (download_list env a).1,
        .error err) := by
  induction pre with
  | nil =>
    rcases hp : download_list env a with ⟨s, r⟩
    rw [hp] at h2
    simp at h2
    subst h2
    simp [downloadArtistLoop, hp]
  | cons b t ih =>
    have hb := h1 b (List.mem_cons_self b t)
    rcases hp : download_list env b with ⟨s, r⟩
    rw [hp] at hb
    simp at hb
    subst hb
    have ht : ∀ x ∈ t, (download_list env x).2 = .ok true :=
      fun x hx => h1 x (List.mem_cons_of_mem b hx)
    simp [downloadArtistLoop, hp, ih ht]

/-- Witness for the amended C1 at a concrete input: in `exC1Env`, running the
artist loop over `["a1", "a2"]` submits nothing and stops with the error from
"a1", never enumerating "a2". -/
theorem c1_artist_abort_witness :
    downloadArtistLoop exC1Env ([] ++ "a1" :: ["a2"]) =
      (([] : List (List String)).flatten ++ (download_list exC1Env "a1").1,
        .error "EnumerationFailure") :=
  c1_artist_abort exC1Env [] "a1" ["a2"] "EnumerationFailure"
    (by intro b hb; exact absurd hb (List.not_mem_nil b)) rfl

/-! ## Theorems for claims C4 and C5 -/

/-- C4: when the final destination path — after the extension derived from the
stream manifest has been applied — already exists, the transfer unit returns
the skipped outcome `Ok(false)`, issues no streaming HTTP GET, creates no
file, and writes no bytes. -/
theorem c4_skip_if_exists (env : FileEnv) (track : Track) (path : String)
    (m : Manifest) (h1 : env.manifest = some m) (h2 : env.pathExists = true) :
    (download_file env track path).2 = .ok false ∧
    ((download_file env track path).1.all
      (fun e => !e.isHttpGet && !e.isWriteChunk && !e.isFileCreate)) = true := by
  simp [download_file, h1, h2, Event.isHttpGet, Event.isWriteChunk, Event.isFileCreate]

/-- A concrete transfer environment whose destination file already exists. -/
def exC4Env : FileEnv where
  manifest := some ⟨["http://cdn/u"], "flac"⟩
  pathExists := true
  contentLength := some 10
  createDirOk := true
  createFileOk := true
  chunks := [some 4, some 6]
  flushOk := true
  metadataOk := true

/-- A concrete track entity. -/
def exTrack : Track where
  id := 7
  title := "song"
  track_number := 1
  volume_number := 1
  isrc := "ISRC1"
  explicit := false
  audio_quality := "LOSSLESS"
  duration := 100
  artist := ⟨3, "artist"⟩
  album := ⟨4, some "album", none, none, none, none, none, none, none⟩
  copyright := "c"

/-- Witness for C4 at a concrete input: with the destination present, the run
is skipped with no GET, no file creation and no write. -/
theorem c4_skip_if_exists_witness :
    (download_file exC4Env exTrack "Music/artist/song").2 = .ok false ∧
    ((download_file exC4Env exTrack "Music/artist/song").1.all
      (fun e => !e.isHttpGet && !e.isWriteChunk && !e.isFileCreate)) = true :=
  c4_skip_if_exists exC4Env exTrack "Music/artist/song" ⟨["http://cdn/u"], "flac"⟩ rfl rfl

/-- C5: when the streaming HTTP response carries no content length, the
transfer unit fails with the content-length error for that track, and neither
creates the destination file nor writes any bytes. -/
theorem c5_missing_content_length (env : FileEnv) (track : Track) (path : String)
    (m : Manifest) (h1 : env.manifest = some m) (h2 : env.pathExists = false)
    (h3 : env.contentLength = none) :
    (download_file env track path).2 =
      .error ("Failed to get content length from " ++ m.urls.headD "") ∧
    ((download_file env track path).1.all
      (fun e => !e.isFileCreate && !e.isWriteChunk)) = true := by
  simp [download_file, h1, h2, h3, Event.isFileCreate, Event.isWriteChunk]

/-- A concrete transfer environment whose response has no content length. -/
def exC5Env : FileEnv where
  manifest := some ⟨["http://cdn/u"], "flac"⟩
  pathExists := false
  contentLength := none
  createDirOk := true
  createFileOk := true
  chunks := [some 4]
  flushOk := true
  metadataOk := true

/-- Witness for C5 at a concrete input: with no content length, the run fails
before any file creation or write. -/
theorem c5_missing_content_length_witness :
    (download_file exC5Env exTrack "Music/artist/song").2 =
      .error ("Failed to get content length from " ++ ["http://cdn/u"].headD "") ∧
    ((download_file exC5Env exTrack "Music/artist/song").1.all
      (fun e => !e.isFileCreate && !e.isWriteChunk)) = true :=
  c5_missing_content_length exC5Env exTrack "Music/artist/song"
    ⟨["http://cdn/u"], "flac"⟩ rfl rfl rfl

/-! ## Theorems for claim C6 -/

/-- From any starting value not above the total, the counter values of the
chunk loop form a non-decreasing chain. -/
theorem downloadedSeq_chain (total : Nat) (lens : List Nat) :
    ∀ d, d ≤ total →
      List.Chain (fun a b => a ≤ b) d (downloadedSeq total d lens) := by
  induction lens with
  | nil => intro d _; exact List.Chain.nil
  | cons len rest ih =>
    intro d hd
    exact List.Chain.cons (Nat.le_min.mpr ⟨Nat.le_add_right d len, hd⟩)
      (ih _ (Nat.min_le_right _ _))

/-- Every counter value of the chunk loop is bounded by the total size. -/
theorem downloadedSeq_le (total : Nat) (lens : List Nat) :
    ∀ d, ((downloadedSeq total d lens).all (fun x => decide (x ≤ total))) = true := by
  induction lens with
  | nil => intro d; rfl
  | cons len rest ih =>
    intro d
    simp only [downloadedSeq, List.all_cons, Bool.and_eq_true, decide_eq_true_eq]
    exact ⟨Nat.min_le_right _ _, ih _⟩

/-- On an error-free stream, the chunk loop emits, for the i-th chunk, the
position report of the i-th counter value followed by the write of the i-th
chunk. -/
theorem streamLoop_trace (total : Nat) (lens : List Nat) :
    ∀ d, (streamLoop total (lens.map some) d).1 =
      chunkEvents (downloadedSeq total d lens) lens := by
  induction lens with
  | nil => intro d; rfl
  | cons len rest ih =>
    intro d
    simp [streamLoop, downloadedSeq, chunkEvents, ih]

/-- C6: across any sequence of received byte chunks, the `downloaded` counter
is monotonically non-decreasing from 0 and never exceeds the content length,
and the chunk loop's trace consists, chunk by chunk, of forwarding the new
counter value to the progress display followed by appending the chunk to the
buffered writer. -/
theorem c6_counter_monotone (total : Nat) (lens : List Nat) :
    List.Chain (fun a b => a ≤ b) 0 (downloadedSeq total 0 lens) ∧
    ((downloadedSeq total 0 lens).all (fun x => decide (x ≤ total))) = true ∧
    (streamLoop total (lens.map some) 0).1 =
      chunkEvents (downloadedSeq total 0 lens) lens :=
  ⟨downloadedSeq_chain total lens 0 (Nat.zero_le total),
    downloadedSeq_le total lens 0, streamLoop_trace total lens 0⟩

/-! ## Theorems for claim C8 -/

/-- Every event emitted by the chunk loop is a position report or a chunk
write, i.e. sits in the streaming stage. -/
theorem streamLoop_rank (total : Nat) (chunks : List (Option Nat)) :
    ∀ d, ∀ e ∈ (streamLoop total chunks d).1, rank e = 5 := by
  induction chunks with
  | nil => intro d e he; simp [streamLoop] at he
  | cons c rest ih =>
    intro d e he
    cases c with
    | none => simp [streamLoop] at he
    | some len =>
      simp only [streamLoop, List.mem_cons] at he
      rcases he with h | h | h
      · subst h; rfl
      · subst h; rfl
      · exact ih _ e h

/-- A list of events of one single stage is trivially ordered by stage. -/
theorem rank_const_pairwise (l : List Event) (h : ∀ e ∈ l, rank e = 5) :
    l.Pairwise (fun a b => rank a ≤ rank b) := by
  induction l with
  | nil => exact List.Pairwise.nil
  | cons a t ih =>
    refine List.Pairwise.cons ?_ (ih fun e he => h e (List.mem_cons_of_mem a he))
    intro b hb
    rw [h a (List.mem_cons_self a t), h b (List.mem_cons_of_mem a hb)]

/-- Structure of every possible `download_file` trace: a prefix of stages up
to file creation, then the chunk loop's events, then flush and tag write.
The tag write appears only after a successful flush, and the chunk loop runs
only after an existence check that found no file. -/
theorem download_file_decomp (env : FileEnv) (track : Track) (path : String) :
    ∃ low sevs high : List Event,
      (download_file env track path).1 = low ++ sevs ++ high ∧
      (∀ e ∈ low, rank e ≤ 4) ∧
      low.Pairwise (fun a b => rank a ≤ rank b) ∧
      (∀ e ∈ sevs, rank e = 5) ∧
      (∀ e ∈ high, 6 ≤ rank e) ∧
      high.Pairwise (fun a b => rank a ≤ rank b) ∧
      (Event.writeMetadata ∈ high → Event.flush ∈ high ∧ env.flushOk = true) ∧
      (sevs ≠ [] → ∃ p, Event.existsCheck p false ∈ low) := by
  obtain ⟨mf, pe, cl, cdo, cfo, chunks, fo, mo⟩ := env
  cases mf with
  | none =>
    refine ⟨[.getStreamUrl track.id], [], [], by simp [download_file], ?_, ?_, ?_, ?_, ?_, ?_, ?_⟩ <;>
      simp [rank]
  | some m =>
    cases pe with
    | true =>
      refine ⟨[.getStreamUrl track.id,
        .existsCheck (setExtension path m.fileExtension) true], [], [],
        by simp [download_file], ?_, ?_, ?_, ?_, ?_, ?_, ?_⟩ <;>
        simp [rank, List.pairwise_cons]
    | false =>
      cases cl with
      | none =>
        refine ⟨[.getStreamUrl track.id,
          .existsCheck (setExtension path m.fileExtension) false,
          .httpGet (m.urls.headD "")], [], [],
          by simp [download_file], ?_, ?_, ?_, ?_, ?_, ?_, ?_⟩ <;>
          simp [rank, List.pairwise_cons]
      | some total =>
        cases cdo with
        | false =>
          refine ⟨[.getStreamUrl track.id,
            .existsCheck (setExtension path m.fileExtension) false,
            .httpGet (m.urls.headD ""), .createDirAll], [], [],
            by simp [download_file], ?_, ?_, ?_, ?_, ?_, ?_, ?_⟩ <;>
            simp [rank, List.pairwise_cons]
        | true =>
          cases cfo with
          | false =>
            refine ⟨[.getStreamUrl track.id,
              .existsCheck (setExtension path m.fileExtension) false,
              .httpGet (m.urls.headD ""), .createDirAll,
              .fileCreate (setExtension path m.fileExtension)], [], [],
              by simp [download_file], ?_, ?_, ?_, ?_, ?_, ?_, ?_⟩ <;>
              simp [rank, List.pairwise_cons]
          | true =>
            rcases hsp : streamLoop total chunks 0 with ⟨sevs, sres⟩
            have hsev : ∀ e ∈ sevs, rank e = 5 := by
              intro e he
              exact streamLoop_rank total chunks 0 e (by rw [hsp]; exact he)
            have hecl : sevs ≠ [] →
                ∃ p, Event.existsCheck p false ∈
                  ([.getStreamUrl track.id,
                    .existsCheck (setExtension path m.fileExtension) false,
                    .httpGet (m.urls.headD ""), .createDirAll,
                    .fileCreate (setExtension path m.fileExtension)] : List Event) := by
              intro _
              exact ⟨setExtension path m.fileExtension, by simp⟩
            cases sres with
            | error e =>
              refine ⟨[.getStreamUrl track.id,
                .existsCheck (setExtension path m.fileExtension) false,
                .httpGet (m.urls.headD ""), .createDirAll,
                .fileCreate (setExtension path m.fileExtension)], sevs, [],
                by simp [download_file, hsp], ?_, ?_, hsev, ?_, ?_, ?_, hecl⟩ <;>
                simp [rank, List.pairwise_cons]
            | ok dfin =>
              cases fo with
              | false =>
                refine ⟨[.getStreamUrl track.id,
                  .existsCheck (setExtension path m.fileExtension) false,
                  .httpGet (m.urls.headD ""), .createDirAll,
                  .fileCreate (setExtension path m.fileExtension)], sevs, [.flush],
                  by simp [download_file, hsp], ?_, ?_, hsev, ?_, ?_, ?_, hecl⟩ <;>
                  simp [rank, List.pairwise_cons]
              | true =>
                cases mo with
                | false =>
                  refine ⟨[.getStreamUrl track.id,
                    .existsCheck (setExtension path m.fileExtension) false,
                    .httpGet (m.urls.headD ""), .createDirAll,
                    .fileCreate (setExtension path m.fileExtension)], sevs,
                    [.flush, .writeMetadata],
                    by simp [download_file, hsp], ?_, ?_, hsev, ?_, ?_, ?_, hecl⟩ <;>
                    simp [rank, List.pairwise_cons]
                | true =>
                  refine ⟨[.getStreamUrl track.id,
                    .existsCheck (setExtension path m.fileExtension) false,
                    .httpGet (m.urls.headD ""), .createDirAll,
                    .fileCreate (setExtension path m.fileExtension)], sevs,
                    [.flush, .writeMetadata],
                    by simp [download_file, hsp], ?_, ?_, hsev, ?_, ?_, ?_, hecl⟩ <;>
                    simp [rank, List.pairwise_cons]

/-- C8: within one transfer unit the manifest fetch, the destination-existence
check, the byte streaming, the writer flush and the tag write occur in stage
order throughout the trace; the tag write happens only when the flush is in
the trace and has completed successfully; and bytes are streamed only after an
existence check that found no file at the destination. -/
theorem c8_stage_order (env : FileEnv) (track : Track) (path : String) :
    ((download_file env track path).1).Pairwise (fun a b => rank a ≤ rank b) ∧
    (Event.writeMetadata ∈ (download_file env track path).1 →
      Event.flush ∈ (download_file env track path).1 ∧ env.flushOk = true) ∧
    (∀ n, Event.writeChunk n ∈ (download_file env track path).1 →
      ∃ p, Event.existsCheck p false ∈ (download_file env track path).1) := by
  obtain ⟨low, sevs, high, htr, hlow, hlowp, hsevs, hhigh, hhighp, hwm, hec⟩ :=
    download_file_decomp env track path
  rw [htr]
  refine ⟨?_, ?_, ?_⟩
  · rw [List.pairwise_append]
    refine ⟨?_, ?_, ?_⟩
    · rw [List.pairwise_append]
      refine ⟨hlowp, rank_const_pairwise sevs hsevs, ?_⟩
      intro a ha b hb
      calc rank a ≤ 4 := hlow a ha
        _ ≤ rank b := by rw [hsevs b hb]; omega
    · exact hhighp
    · intro a ha b hb
      rcases List.mem_append.mp ha with h | h
      · calc rank a ≤ 4 := hlow a h
          _ ≤ rank b := le_trans (by omega) (hhigh b hb)
      · calc rank a = 5 := hsevs a h
          _ ≤ rank b := le_trans (by omega) (hhigh b hb)
  · intro hm
    rcases List.mem_append.mp hm with h | h
    · rcases List.mem_append.mp h with h | h
      · have := hlow _ h
        simp [rank] at this
      · have := hsevs _ h
        simp [rank] at this
    · obtain ⟨hf, hfo⟩ := hwm h
      exact ⟨List.mem_append.mpr (Or.inr hf), hfo⟩
  · intro n hn
    rcases List.mem_append.mp hn with h | h
    · rcases List.mem_append.mp h with h | h
      · have := hlow _ h
        simp [rank] at this
      · obtain ⟨p, hp⟩ := hec (List.ne_nil_of_mem h)
        exact ⟨p, List.mem_append.mpr (Or.inl (List.mem_append.mpr (Or.inl hp)))⟩
    · have := hhigh _ h
      simp [rank] at this

end Tdl
